import Mathlib

set_option maxRecDepth 40000

/-!
Shallow embedding of the SPL framework (three-layer decision pipeline):
Layer 0 reactive validation (src/spl/layer0_reactive.py), Layer 1 tactical
pattern matching (src/spl/layer1_tactical.py), Layer 2 deliberative
classification (src/spl/layer2_deliberative.py), the cost tracker
(src/spl/cost_tracker.py) and the orchestrating agent (src/spl/agent.py).

Modelling conventions:
* Python floats (costs, confidences) are modelled as rationals.
* Wall-clock instants produced by datetime.now() are modelled as an
  integer parameter threaded into each call that reads the clock.
* Python dicts (insertion ordered) are association lists; insertion on an
  existing key replaces the value in place, keeping the key's position.
* The Python re library is external to the repository; it is modelled on
  the fragment the repository uses, alternations of literal words.  A
  pattern containing a regex metacharacter is modelled as failing to
  compile, which covers the genuinely malformed patterns exercised by the
  repository's tests (such as an unclosed bracket).
* The SHA-256 cache key of the lowercased content (layer1_tactical.py:133)
  only bounds the key size; the cache is modelled as keyed by the
  lowercased content itself.
-/

namespace SPL

/-- Decimal constant m times ten to the minus e, as a rational; written
through Rat.divInt so that the kernel can evaluate it.  Every float
literal of the source is rendered with it. -/
def decimal (m : Int) (e : Nat) : ℚ := Rat.divInt m (10 ^ e)

/-- Python str.lower, restricted to the ASCII contents the repo handles. -/
def lowerStr (s : String) : String := String.mk (s.data.map Char.toLower)

/-- Containment of one character list in another at any position. -/
def infixOfList (needle : List Char) : List Char → Bool
  | [] => needle.isEmpty
  | c :: rest => needle.isPrefixOf (c :: rest) || infixOfList needle rest

/-- Python substring containment: needle in haystack. -/
def substrOf (needle haystack : String) : Bool :=
  infixOfList needle.toList haystack.toList

/-- Accumulator pass behind pySplit: cur holds the current token reversed. -/
def pySplitAux (cur : List Char) : List Char → List String
  | [] => if cur = [] then [] else [String.mk cur.reverse]
  | c :: rest =>
    if c.isWhitespace then
      if cur = [] then pySplitAux [] rest
      else String.mk cur.reverse :: pySplitAux [] rest
    else pySplitAux (c :: cur) rest

/-- Python str.split() with no separator: split on whitespace runs, dropping
empty pieces. -/
def pySplit (s : String) : List String := pySplitAux [] s.data

/-- Accumulator pass behind splitBar. -/
def splitBarAux (cur : List Char) : List Char → List String
  | [] => [String.mk cur.reverse]
  | c :: rest =>
    if c = '|' then String.mk cur.reverse :: splitBarAux [] rest
    else splitBarAux (c :: cur) rest

/-- Split a pattern on the alternation bar, keeping empty alternatives,
as str.split of the bar does. -/
def splitBar (s : String) : List String := splitBarAux [] s.data

/-- Lookup in an insertion-ordered dict modelled as an association list. -/
def dictGet {α β : Type} [DecidableEq α] (l : List (α × β)) (k : α) : Option β :=
  match l with
  | [] => none
  | (k', v) :: rest => if k' = k then some v else dictGet rest k

/-- Insertion into an insertion-ordered dict: an existing key keeps its
position and gets the new value, a new key is appended at the end. -/
def dictInsert {α β : Type} [DecidableEq α] (l : List (α × β)) (k : α) (v : β) :
    List (α × β) :=
  match l with
  | [] => [(k, v)]
  | (k', v') :: rest =>
    if k' = k then (k', v) :: rest else (k', v') :: dictInsert rest k v

/-- Outcome of re.search: a boolean, or the re.error raised on a pattern
that does not compile. -/
inductive ReOutcome where
  | ok (matched : Bool)
  | error
deriving DecidableEq, Repr

/-- Characters outside the literal-alternation regex fragment used by the
repository.  A pattern containing one is modelled as not compiling. -/
def reMeta : List Char :=
  ['(', ')', '[', ']', '{', '}', '*', '+', '?', '.', '^', '$', '\\']

/-- Model of re.search(regex, text, re.IGNORECASE) on the literal
alternation fragment: the pattern is split on the bar into literal
alternatives, and matches if some alternative occurs in the text.  A
pattern containing a metacharacter is modelled as raising re.error. -/
def reSearch (regex text : String) : ReOutcome :=
  if regex.data.any (fun c => c ∈ reMeta) then .error
  else .ok ((splitBar (lowerStr regex)).any fun alt => substrOf alt text)

/-- A request content value: either a Python string or some non-string
object (validation only ever asks which of the two it is). -/
inductive PyVal where
  | str (s : String)
  | nonStr
deriving DecidableEq, Repr

/-- Underlying string of a content value (the empty string for the
non-string case, which validation filters out before any string use). -/
def PyVal.getStr : PyVal → String
  | .str s => s
  | .nonStr => ""

/-- A request dict; absent keys are modelled as none, with the source's
get-defaults applied at the use sites. -/
structure Request where
  userId : Option String := none
  content : Option PyVal := none
deriving DecidableEq, Repr

/-- ValidationResult of layer0_reactive.py. -/
structure ValidationResult where
  valid : Bool
  reason : Option String := none
  rejected : Bool := false
deriving DecidableEq, Repr

/-- Per-user rate-limit entry of Layer0Reactive.rate_limits. -/
structure RateEntry where
  count : Nat
  windowStart : Int
deriving DecidableEq, Repr

/-- State of Layer0Reactive. -/
structure L0State where
  minLength : Nat := 5
  maxLength : Nat := 1000
  blocklist : List String := []
  allowlist : List String := []
  rateLimits : List (String × RateEntry) := []
  validationCount : Nat := 0
deriving DecidableEq, Repr

/-- Layer0Reactive._check_rate_limit (layer0_reactive.py:125-170). -/
def checkRateLimit (st : L0State) (userId : String) (now : Int)
    (maxRequests : Nat) (windowSeconds : Int) : ValidationResult × L0State :=
  match dictGet st.rateLimits userId with
  | none =>
    (⟨true, none, false⟩,
     { st with rateLimits := dictInsert st.rateLimits userId ⟨1, now⟩ })
  | some e =>
    if windowSeconds < now - e.windowStart then
      (⟨true, none, false⟩,
       { st with rateLimits := dictInsert st.rateLimits userId ⟨1, now⟩ })
    else if maxRequests ≤ e.count then
      (⟨false, some "Rate limit exceeded", true⟩, st)
    else
      (⟨true, none, false⟩,
       { st with rateLimits :=
           dictInsert st.rateLimits userId ⟨e.count + 1, e.windowStart⟩ })

/-- Layer0Reactive.validate (layer0_reactive.py:69-123): type, length,
blocklist and rate-limit checks in order, first failure winning. -/
def validate (st : L0State) (req : Request) (now : Int) :
    ValidationResult × L0State :=
  let st := { st with validationCount := st.validationCount + 1 }
  let content := req.content.getD (.str "")
  let userId := req.userId.getD "anonymous"
  match content with
  | .nonStr => (⟨false, some "Content must be a string", true⟩, st)
  | .str s =>
    if s.length < st.minLength then
      (⟨false, some ("Content too short (min " ++ toString st.minLength
          ++ " chars)"), true⟩, st)
    else if st.maxLength < s.length then
      (⟨false, some ("Content too long (max " ++ toString st.maxLength
          ++ " chars)"), true⟩, st)
    else
      let cl := lowerStr s
      match st.blocklist.find? (fun b => substrOf (lowerStr b) cl) with
      | some b =>
        (⟨false, some ("Blocked term detected: " ++ b), true⟩, st)
      | none => checkRateLimit st userId now 100 60

/-- DeliberativeResult of layer2_deliberative.py. -/
structure DeliberativeResult where
  category : String
  confidence : ℚ
  cost : ℚ
  reasoning : Option String := none
  model : Option String := none
deriving DecidableEq, Repr

/-- State of Layer2Deliberative; hasClient models whether a model_client
object is configured. -/
structure L2State where
  hasClient : Bool := false
  costPerCall : ℚ := decimal 1 2
  modelName : String := "simulated"
  callCount : Nat := 0
  totalCost : ℚ := 0
deriving DecidableEq, Repr

/-- Urgency keyword test of _simulated_reason (layer2_deliberative.py:109). -/
def hasUrgentKw (cl : String) : Bool :=
  substrOf "urgent" cl || substrOf "asap" cl || substrOf "emergency" cl

/-- Billing keyword test of _simulated_reason (layer2_deliberative.py:117). -/
def hasBillingKw (cl : String) : Bool :=
  substrOf "invoice" cl || substrOf "billing" cl || substrOf "payment" cl

/-- Spam keyword test of _simulated_reason (layer2_deliberative.py:125). -/
def hasSpamKw (cl : String) : Bool :=
  substrOf "unsubscribe" cl || substrOf "viagra" cl || substrOf "lottery" cl

/-- Layer2Deliberative._simulated_reason (layer2_deliberative.py:96-140). -/
def simulatedReason (st : L2State) (content : String) : DeliberativeResult :=
  let cl := lowerStr content
  if hasUrgentKw cl then
    ⟨"urgent", decimal 92 2, st.costPerCall, some "Contains urgency indicators",
      some st.modelName⟩
  else if hasBillingKw cl then
    ⟨"billing", decimal 88 2, st.costPerCall, some "Contains billing-related terms",
      some st.modelName⟩
  else if hasSpamKw cl then
    ⟨"spam", decimal 95 2, st.costPerCall, some "Contains spam indicators",
      some st.modelName⟩
  else
    ⟨"other", decimal 75 2, st.costPerCall, some "No specific category matched",
      some st.modelName⟩

/-- Layer2Deliberative.reason (layer2_deliberative.py:65-84): the counter
and running cost are updated before any branching; the _call_model
placeholder (layer2_deliberative.py:86-94) falls through to the simulated
path, so both branches answer with the heuristic. -/
def l2reason (st : L2State) (content : String) : DeliberativeResult × L2State :=
  let st' := { st with callCount := st.callCount + 1,
                       totalCost := st.totalCost + st.costPerCall }
  if st'.hasClient then (simulatedReason st' content, st')
  else (simulatedReason st' content, st')

/-- CostRecord of cost_tracker.py. -/
structure CostRecord where
  layer : Int
  cost : ℚ
  category : String
  method : String
  timestamp : Int
  confidence : ℚ := 0
deriving DecidableEq, Repr

/-- State of CostTracker. -/
structure TrackerState where
  records : List CostRecord := []
  layerCosts : List (Int × ℚ) := [(0, 0), (1, 0), (2, 0)]
  layerCounts : List (Int × Nat) := [(0, 0), (1, 0), (2, 0)]
  suppressions : Nat := 0
  baselinePerRequest : ℚ := decimal 1 2
deriving DecidableEq, Repr

/-- CostTracker.record (cost_tracker.py:45-73). -/
def trackRecord (st : TrackerState) (layer : Int) (cost : ℚ)
    (category method : String) (confidence : ℚ) (now : Int) : TrackerState :=
  { st with
    records := st.records ++ [⟨layer, cost, category, method, now, confidence⟩]
    layerCosts :=
      dictInsert st.layerCosts layer ((dictGet st.layerCosts layer).getD 0 + cost)
    layerCounts :=
      dictInsert st.layerCounts layer ((dictGet st.layerCounts layer).getD 0 + 1)
    suppressions :=
      if layer < 2 then st.suppressions + 1 else st.suppressions }

/-- CostTracker.total_requests (cost_tracker.py:90-93). -/
def totalRequests (st : TrackerState) : Nat :=
  (st.layerCounts.map Prod.snd).sum

/-- CostTracker.total_cost (cost_tracker.py:95-98). -/
def totalCost (st : TrackerState) : ℚ :=
  (st.layerCosts.map Prod.snd).sum

/-- CostTracker.baseline_cost (cost_tracker.py:100-103). -/
def baselineCost (st : TrackerState) : ℚ :=
  (totalRequests st : ℚ) * st.baselinePerRequest

/-- CostTracker.cost_savings (cost_tracker.py:105-108). -/
def costSavings (st : TrackerState) : ℚ :=
  baselineCost st - totalCost st

/-- CostTracker.suppression_rate (cost_tracker.py:110-115). -/
def suppressionRate (st : TrackerState) : ℚ :=
  if totalRequests st = 0 then 0
  else (st.suppressions : ℚ) / (totalRequests st : ℚ)

/-- Value of cost_reduction_factor: a rational, or the float infinity the
source returns when the baseline is positive and nothing was spent. -/
inductive CostFactor where
  | finite (x : ℚ)
  | infinite
deriving DecidableEq, Repr

/-- CostTracker.cost_reduction_factor (cost_tracker.py:117-122). -/
def costReductionFactor (st : TrackerState) : CostFactor :=
  if totalCost st = 0 then
    if 0 < baselineCost st then .infinite else .finite 1
  else .finite (baselineCost st / totalCost st)

/-- Pattern of layer1_tactical.py. -/
structure Pattern where
  name : String
  regex : String
  category : String
  confidence : ℚ
  learnedAt : Option Int := none
  learnedBy : Option String := none
  matchCount : Nat := 0
deriving DecidableEq, Repr

/-- PatternMatchResult of layer1_tactical.py. -/
structure PatternMatchResult where
  matched : Bool
  patternName : Option String := none
  category : Option String := none
  confidence : ℚ := 0
  method : String := "pattern"
deriving DecidableEq, Repr

/-- Entry of the shared-state learned_patterns map. -/
structure SharedEntry where
  confidence : ℚ
  learnedBy : Option String := none
  learnedAt : Int := 0
deriving DecidableEq, Repr

/-- The learned_patterns sub-map of the shared state; none models a
shared-state dict in which the learned_patterns key is absent. -/
abbrev SharedState := Option (List (String × SharedEntry))

/-- State of Layer1Tactical (aside from the injected shared state, which
is threaded explicitly through the operations that touch it). -/
structure L1State where
  patterns : List (String × Pattern) := []
  confidenceThreshold : ℚ := decimal 85 2
  cache : List (String × PatternMatchResult) := []
  matchCount : Nat := 0
  cost : ℚ := 0
deriving DecidableEq, Repr

/-- Layer1Tactical.add_pattern (layer1_tactical.py:80-102). -/
def addPattern (st : L1State) (name regex category : String)
    (confidence : ℚ) (now : Int) : L1State :=
  { st with patterns := (dictInsert st.patterns name
      ⟨name, regex, category, confidence, some now, none, 0⟩) }

/-- Scan of the locally registered patterns (layer1_tactical.py:138-156):
first pattern that matches with confidence at or above the threshold wins
and has its match_count bumped; a pattern that raises re.error is skipped;
a matching pattern below the threshold does not stop the scan. -/
def scanLocal (thr : ℚ) (cl : String) :
    List (String × Pattern) → Option PatternMatchResult × List (String × Pattern)
  | [] => (none, [])
  | (nm, p) :: rest =>
    match reSearch p.regex cl with
    | .ok true =>
      if thr ≤ p.confidence then
        (some ⟨true, some nm, some p.category, p.confidence, "pattern_cached"⟩,
         (nm, { p with matchCount := p.matchCount + 1 }) :: rest)
      else
        let rec1 := scanLocal thr cl rest
        (rec1.1, (nm, p) :: rec1.2)
    | .ok false =>
      let rec1 := scanLocal thr cl rest
      (rec1.1, (nm, p) :: rec1.2)
    | .error =>
      let rec1 := scanLocal thr cl rest
      (rec1.1, (nm, p) :: rec1.2)

/-- Scan of the shared learned_patterns map (layer1_tactical.py:158-173):
first entry whose lowercased category key occurs in the content and whose
stored confidence reaches the threshold wins. -/
def scanShared (thr : ℚ) (cl : String) :
    List (String × SharedEntry) → Option PatternMatchResult
  | [] => none
  | (cat, info) :: rest =>
    if substrOf (lowerStr cat) cl then
      if thr ≤ info.confidence then
        some ⟨true, some cat, some cat, info.confidence, "pattern_shared"⟩
      else scanShared thr cl rest
    else scanShared thr cl rest

/-- Layer1Tactical.match (layer1_tactical.py:119-177): bump the attempt
counter, consult the cache, then the local patterns, then the shared map,
caching whatever is produced (a negative included). -/
def l1match (st : L1State) (sh : SharedState) (content : String) :
    Option PatternMatchResult × L1State :=
  let st := { st with matchCount := st.matchCount + 1 }
  let cl := lowerStr content
  match dictGet st.cache cl with
  | some cached => (if cached.matched then some cached else none, st)
  | none =>
    let scan := scanLocal st.confidenceThreshold cl st.patterns
    match scan.1 with
    | some r =>
      (some r, { st with patterns := scan.2, cost := st.cost + decimal 1 4,
                         cache := dictInsert st.cache cl r })
    | none =>
      match sh with
      | some entries =>
        match scanShared st.confidenceThreshold cl entries with
        | some r =>
          (some r, { st with patterns := scan.2, cost := st.cost + decimal 1 4,
                             cache := dictInsert st.cache cl r })
        | none =>
          (none, { st with patterns := scan.2,
                           cache := dictInsert st.cache cl ⟨false, none, none, 0, "pattern"⟩ })
      | none =>
        (none, { st with patterns := scan.2,
                         cache := dictInsert st.cache cl ⟨false, none, none, 0, "pattern"⟩ })

/-- Layer1Tactical.learn_pattern (layer1_tactical.py:179-229). -/
def learnPattern (st : L1State) (sh : SharedState) (content category : String)
    (confidence : ℚ) (learnedBy : Option String) (now : Int) :
    Option String × L1State × SharedState :=
  if confidence < decimal 90 2 then (none, st, sh)
  else
    match pySplit (lowerStr content) with
    | [] => (none, st, sh)
    | kw :: _ =>
      let nm := "learned_" ++ kw ++ "_" ++ category
      (some nm,
       { st with patterns := (dictInsert st.patterns nm
           ⟨nm, kw, category, confidence, some now, learnedBy, 0⟩) },
       some (dictInsert (sh.getD []) category ⟨confidence, learnedBy, now⟩))

/-- Decision of agent.py. -/
structure Decision where
  category : String
  method : String
  confidence : ℚ
  cost : ℚ
  layer : Int
  suppressed : Bool := false
deriving DecidableEq, Repr

/-- Python falsy-or on an optional string, as in match_result.category or
the unknown fallback (agent.py:135): none and the empty string both fall
through to the default. -/
def pyOrStr (o : Option String) (d : String) : String :=
  match o with
  | none => d
  | some c => if c = "" then d else c

/-- The orchestrator's deliberative component: the built-in
Layer2Deliberative, or an external classifier substituted with set_layer2
(agent.py:202-209, spec section 6), whose reason call may raise. -/
inductive L2Impl where
  | builtin (st : L2State)
  | external (f : String → Except Unit DeliberativeResult)

/-- One reason call on the deliberative component.  The built-in layer is
total on well-typed state; a substituted external classifier is the
failure point the orchestrator's blanket except clause guards. -/
def reasonStep : L2Impl → String → Except Unit (DeliberativeResult × L2Impl)
  | .builtin st, content =>
    let (r, st') := l2reason st content
    .ok (r, .builtin st')
  | .external f, content => (f content).map fun r => (r, .external f)

/-- State of SPLAgent. -/
structure AgentState where
  agentId : String := "spl_agent"
  confidenceThreshold : ℚ := decimal 85 2
  layer0 : L0State := {}
  layer1 : L1State := {}
  layer2 : L2Impl := .builtin {}
  tracker : TrackerState := {}
  suppressionCount : Nat := 0

/-- CostTracker.record_result on a Decision (cost_tracker.py:75-88). -/
def recordResult (st : TrackerState) (d : Decision) (now : Int) : TrackerState :=
  trackRecord st d.layer d.cost d.category d.method d.confidence now

/-- SPLAgent.process (agent.py:91-178): validate, then pattern match, then
deliberate with conditional learning; every terminal Decision is recorded
into the tracker before being returned, and a failure raised by the
deliberative component is converted to the ERROR decision. -/
def process (ag : AgentState) (sh : SharedState) (req : Request) (now : Int) :
    Decision × AgentState × SharedState :=
  let v := validate ag.layer0 req now
  let ag1 := { ag with layer0 := v.2 }
  if v.1.valid = false then
    let d : Decision := ⟨"REJECTED", "validation", 1, 0, 0, true⟩
    (d, { ag1 with tracker := recordResult ag1.tracker d now }, sh)
  else
    let s := (req.content.getD (.str "")).getStr
    let mr := l1match ag1.layer1 sh s
    let ag2 := { ag1 with layer1 := mr.2 }
    match mr.1 with
    | some m =>
      let d : Decision := ⟨pyOrStr m.category "unknown", m.method, m.confidence, 0, 1, true⟩
      (d, { ag2 with suppressionCount := ag2.suppressionCount + 1,
                     tracker := recordResult ag2.tracker d now }, sh)
    | none =>
      match reasonStep ag2.layer2 s with
      | .error _ =>
        let d : Decision := ⟨"ERROR", "error_handler", 0, 0, 0, false⟩
        (d, { ag2 with tracker := recordResult ag2.tracker d now }, sh)
      | .ok (fm, l2') =>
        let ag3 := { ag2 with layer2 := l2' }
        let ls :=
          if (decimal 90 2) ≤ fm.confidence then
            let r := learnPattern ag3.layer1 sh s fm.category fm.confidence
              (some ag3.agentId) now
            (r.2.1, r.2.2)
          else (ag3.layer1, sh)
        let d : Decision := ⟨fm.category, "llm", fm.confidence, fm.cost, 2, false⟩
        (d, { ag3 with layer1 := ls.1,
                       tracker := recordResult ag3.tracker d now }, ls.2)

/-- The suppression-related fields of SPLAgent.report (agent.py:221-244):
the rate comes from the cost tracker, the count is the agent's own
counter. -/
structure AgentReportSlice where
  totalCostField : ℚ
  suppressionRateField : ℚ
  suppressionsField : Nat
  patternsLearnedField : Nat
deriving DecidableEq, Repr

/-- Projection of SPLAgent.report onto the fields the claims mention. -/
def agentReport (ag : AgentState) : AgentReportSlice :=
  { totalCostField := totalCost ag.tracker
    suppressionRateField := suppressionRate ag.tracker
    suppressionsField := ag.suppressionCount
    patternsLearnedField := ag.layer1.patterns.length }

/-- States an agent can reach: any freshly constructed and configured
agent (arbitrary registered patterns, blocklist, substituted layer 2,
caller-supplied shared map, but a fresh tracker and zero suppression
count), evolved by process calls. -/
inductive Reached : AgentState → SharedState → Prop where
  | init (id : String) (thr : ℚ) (l0 : L0State) (l1 : L1State) (l2 : L2Impl)
      (sh : SharedState) : Reached ⟨id, thr, l0, l1, l2, {}, 0⟩ sh
  | step {ag : AgentState} {sh : SharedState} (req : Request) (now : Int)
      (h : Reached ag sh) :
      Reached (process ag sh req now).2.1 (process ag sh req now).2.2


/-! Helper lemmas about the association-list dictionaries. -/

theorem dictGet_dictInsert_self {α β : Type} [DecidableEq α]
    (l : List (α × β)) (k : α) (v : β) : dictGet (dictInsert l k v) k = some v := by
  induction l with
  | nil => simp [dictGet, dictInsert]
  | cons hd tl ih =>
    obtain ⟨k', v'⟩ := hd
    by_cases h : k' = k <;> simp [dictGet, dictInsert, h, ih]

theorem dictGet_append_of_not_mem {α β : Type} [DecidableEq α]
    {l1 : List (α × β)} {k : α} (h : k ∉ l1.map Prod.fst) (l2 : List (α × β)) :
    dictGet (l1 ++ l2) k = dictGet l2 k := by
  induction l1 with
  | nil => rfl
  | cons hd tl ih =>
    obtain ⟨k', v'⟩ := hd
    simp only [List.map_cons, List.mem_cons, not_or] at h
    have hne : ¬ (k' = k) := fun e => h.1 e.symm
    simp [dictGet, hne, ih h.2]

theorem dictGet_cons_self {α β : Type} [DecidableEq α]
    (k : α) (v : β) (l : List (α × β)) : dictGet ((k, v) :: l) k = some v := by
  simp [dictGet]

/-! Helper lemmas about the deliberative layer. -/

/-- The counter-and-cost update a reason call performs before branching. -/
def l2bump (st : L2State) : L2State :=
  { st with callCount := st.callCount + 1, totalCost := st.totalCost + st.costPerCall }

theorem l2reason_eq (st : L2State) (content : String) :
    l2reason st content = (simulatedReason (l2bump st) content, l2bump st) := by
  simp [l2reason, l2bump]

theorem simulatedReason_cost (st : L2State) (content : String) :
    (simulatedReason st content).cost = st.costPerCall := by
  simp only [simulatedReason]
  split
  · rfl
  · split
    · rfl
    · split <;> rfl

/-- Claim C5: learn_pattern below the 0.90 bar returns none and changes
neither the local pattern map nor the shared state; at or above the bar,
with at least one whitespace-delimited token in the content, it registers
a local pattern named from the first lowercased token and the category,
whose regex is that literal token and whose confidence is the supplied
value, publishes the confidence, learner and timestamp under the category
key of the shared learned-pattern map (overwriting any previous entry in
place), and returns the synthesized name. -/
theorem learnPattern_threshold_and_publish (st : L1State) (sh : SharedState)
    (content category : String) (confidence : ℚ) (lb : Option String) (now : Int) :
    (confidence < decimal 90 2 →
      learnPattern st sh content category confidence lb now = (none, st, sh)) ∧
    (decimal 90 2 ≤ confidence → ∀ kw rest, pySplit (lowerStr content) = kw :: rest →
      learnPattern st sh content category confidence lb now =
        (some ("learned_" ++ kw ++ "_" ++ category),
         { st with patterns := (dictInsert st.patterns ("learned_" ++ kw ++ "_" ++ category)
             ⟨"learned_" ++ kw ++ "_" ++ category, kw, category, confidence, some now, lb, 0⟩) },
         some (dictInsert (sh.getD []) category ⟨confidence, lb, now⟩))) ∧
    (decimal 90 2 ≤ confidence → pySplit (lowerStr content) = [] →
      learnPattern st sh content category confidence lb now = (none, st, sh)) := by
  refine ⟨fun h => ?_, fun h kw rest hsplit => ?_, fun h hsplit => ?_⟩
  · simp [learnPattern, h]
  · simp [learnPattern, not_lt.mpr h, hsplit]
  · simp [learnPattern, not_lt.mpr h, hsplit]

/-- Witness for C5: a 0.50-confidence candidate is not learned, while a
0.92-confidence candidate for content whose first token is the invoice
word is registered locally and published into the shared map. -/
theorem learnPattern_threshold_and_publish_witness :
    learnPattern {} none "Invoice due today" "billing" (decimal 5 1) (some "A") 3 =
      (none, {}, none) ∧
    learnPattern {} none "Invoice due today" "billing" (decimal 92 2) (some "A") 3 =
      (some "learned_invoice_billing",
       { patterns := [("learned_invoice_billing",
           ⟨"learned_invoice_billing", "invoice", "billing", decimal 92 2, some 3, some "A", 0⟩)] },
       some [("billing", ⟨decimal 92 2, some "A", 3⟩)]) := by
  constructor
  · exact (learnPattern_threshold_and_publish {} none "Invoice due today" "billing"
      (decimal 5 1) (some "A") 3).1 (by decide)
  · have h := (learnPattern_threshold_and_publish {} none "Invoice due today" "billing"
      (decimal 92 2) (some "A") 3).2.1 (by decide) "invoice" ["due", "today"] (by decide)
    exact h.trans (by decide)

/-- Claim C6: every reason call bumps the call counter and adds
cost_per_call to the running total, whichever branch answers, and the
built-in heuristic classifies the lowercased content by the urgency,
billing and spam keyword groups in that order, with categories urgent at
0.92, billing at 0.88, spam at 0.95 and other at 0.75, the result always
costing cost_per_call. -/
theorem l2reason_counts_and_heuristic (st : L2State) (content : String) :
    ((l2reason st content).2.callCount = st.callCount + 1) ∧
    ((l2reason st content).2.totalCost = st.totalCost + st.costPerCall) ∧
    ((l2reason st content).1.cost = st.costPerCall) ∧
    (hasUrgentKw (lowerStr content) = true →
      (l2reason st content).1.category = "urgent" ∧
      (l2reason st content).1.confidence = decimal 92 2) ∧
    (hasUrgentKw (lowerStr content) = false → hasBillingKw (lowerStr content) = true →
      (l2reason st content).1.category = "billing" ∧
      (l2reason st content).1.confidence = decimal 88 2) ∧
    (hasUrgentKw (lowerStr content) = false → hasBillingKw (lowerStr content) = false →
      hasSpamKw (lowerStr content) = true →
      (l2reason st content).1.category = "spam" ∧
      (l2reason st content).1.confidence = decimal 95 2) ∧
    (hasUrgentKw (lowerStr content) = false → hasBillingKw (lowerStr content) = false →
      hasSpamKw (lowerStr content) = false →
      (l2reason st content).1.category = "other" ∧
      (l2reason st content).1.confidence = decimal 75 2) := by
  rw [l2reason_eq]
  refine ⟨rfl, rfl, simulatedReason_cost _ _, fun h1 => ?_, fun h1 h2 => ?_,
    fun h1 h2 h3 => ?_, fun h1 h2 h3 => ?_⟩
  · constructor <;> simp [simulatedReason, h1]
  · constructor <;> simp [simulatedReason, h1, h2]
  · constructor <;> simp [simulatedReason, h1, h2, h3]
  · constructor <;> simp [simulatedReason, h1, h2, h3]

/-- Witness for C6: the four heuristic branches on concrete contents, with
the counter bump of a fresh stage and the fixed per-call cost. -/
theorem l2reason_counts_and_heuristic_witness :
    ((l2reason {} "urgent fix").2.callCount = 0 + 1 ∧
      (l2reason {} "urgent fix").1.category = "urgent" ∧
      (l2reason {} "urgent fix").1.confidence = decimal 92 2) ∧
    ((l2reason {} "billing issue").1.category = "billing" ∧
      (l2reason {} "billing issue").1.confidence = decimal 88 2) ∧
    ((l2reason {} "lottery win").1.category = "spam" ∧
      (l2reason {} "lottery win").1.confidence = decimal 95 2) ∧
    ((l2reason {} "hello world").1.category = "other" ∧
      (l2reason {} "hello world").1.confidence = decimal 75 2 ∧
      (l2reason {} "hello world").1.cost = decimal 1 2) := by
  have hu := l2reason_counts_and_heuristic {} "urgent fix"
  have hb := l2reason_counts_and_heuristic {} "billing issue"
  have hs := l2reason_counts_and_heuristic {} "lottery win"
  have ho := l2reason_counts_and_heuristic {} "hello world"
  refine ⟨⟨hu.1, hu.2.2.2.1 (by decide)⟩, hb.2.2.2.2.1 (by decide) (by decide),
    hs.2.2.2.2.2.1 (by decide) (by decide) (by decide), ?_⟩
  have h4 := ho.2.2.2.2.2.2 (by decide) (by decide) (by decide)
  exact ⟨h4.1, h4.2, ho.2.2.1⟩

/-- Claim C7: the cost tracker's derived metrics obey the aggregate laws:
baseline is request count times per-request baseline, savings is baseline
minus total, the suppression rate is the ratio of the suppression counter
to the request count and zero when there are no requests, the reduction
factor is baseline over total, infinite exactly when the total is zero
while the baseline is positive, and one when both are zero; the request
and cost totals are the sums over the per-layer maps. -/
theorem trackerMetrics (st : TrackerState) :
    baselineCost st = (totalRequests st : ℚ) * st.baselinePerRequest ∧
    costSavings st = baselineCost st - totalCost st ∧
    (totalRequests st = 0 → suppressionRate st = 0) ∧
    (totalRequests st ≠ 0 →
      suppressionRate st = (st.suppressions : ℚ) / (totalRequests st : ℚ)) ∧
    (costReductionFactor st = .infinite ↔ totalCost st = 0 ∧ 0 < baselineCost st) ∧
    (totalCost st = 0 → baselineCost st = 0 → costReductionFactor st = .finite 1) ∧
    (totalCost st ≠ 0 →
      costReductionFactor st = .finite (baselineCost st / totalCost st)) ∧
    totalRequests st = (st.layerCounts.map Prod.snd).sum ∧
    totalCost st = (st.layerCosts.map Prod.snd).sum := by
  refine ⟨rfl, rfl, fun h => by simp [suppressionRate, h],
    fun h => by simp [suppressionRate, h], ?_, fun h1 h2 => ?_, fun h => ?_, rfl, rfl⟩
  · constructor
    · intro h
      by_cases h1 : totalCost st = 0
      · by_cases h2 : 0 < baselineCost st
        · exact ⟨h1, h2⟩
        · simp [costReductionFactor, h1, h2] at h
      · simp [costReductionFactor, h1] at h
    · rintro ⟨h1, h2⟩
      simp [costReductionFactor, h1, h2]
  · simp [costReductionFactor, h1, h2]
  · simp [costReductionFactor, h]

/-- Tracker state holding one recorded layer-2 decision, used to witness
the metric laws away from the empty state. -/
def trackerW : TrackerState :=
  trackRecord {} 2 (decimal 1 2) "other" "llm" (decimal 75 2) 0

/-- Witness for C7: the laws evaluated on the empty tracker and on a
tracker holding one layer-2 record. -/
theorem trackerMetrics_witness :
    suppressionRate ({} : TrackerState) = 0 ∧
    costReductionFactor ({} : TrackerState) = .finite 1 ∧
    suppressionRate trackerW =
      ((({} : TrackerState).suppressions : ℚ) / ((totalRequests trackerW : ℕ) : ℚ)) ∧
    costReductionFactor trackerW = .finite (baselineCost trackerW / totalCost trackerW) := by
  have h0 := trackerMetrics ({} : TrackerState)
  have h1 := trackerMetrics trackerW
  refine ⟨h0.2.2.1 (by decide), ?_, ?_, ?_⟩
  · exact h0.2.2.2.2.2.1 (by norm_num [totalCost])
      (by norm_num [baselineCost, totalRequests])
  · exact h1.2.2.2.1 (by decide)
  · refine h1.2.2.2.2.2.2.1 ?_
    norm_num [totalCost, trackerW, trackRecord, dictInsert, dictGet, decimal,
      Rat.divInt_eq_div]

/-! Claim C8: the validation stage. -/

/-- The validation-counter bump validate performs on entry. -/
def l0bump (st : L0State) : L0State :=
  { st with validationCount := st.validationCount + 1 }

/-- Claim C8: validate applies the type, length, blocklist and rate-limit
checks in that fixed order with the first failure winning, and answers
valid exactly when all four pass; the per-user limiter opens a window
with count one on first sight, resets after more than window_seconds,
fails at max_requests within the window, and otherwise counts up and
passes. -/
theorem validate_order_and_rate_limit (st : L0State) (req : Request) (now : Int) :
    (req.content.getD (.str "") = .nonStr →
      validate st req now = (⟨false, some "Content must be a string", true⟩, l0bump st)) ∧
    (∀ s, req.content.getD (.str "") = .str s →
      (s.length < st.minLength →
        validate st req now = (⟨false, some ("Content too short (min " ++
          toString st.minLength ++ " chars)"), true⟩, l0bump st)) ∧
      (st.minLength ≤ s.length → st.maxLength < s.length →
        validate st req now = (⟨false, some ("Content too long (max " ++
          toString st.maxLength ++ " chars)"), true⟩, l0bump st)) ∧
      (∀ b, st.minLength ≤ s.length → s.length ≤ st.maxLength →
        st.blocklist.find? (fun t => substrOf (lowerStr t) (lowerStr s)) = some b →
        validate st req now = (⟨false, some ("Blocked term detected: " ++ b), true⟩, l0bump st)) ∧
      (st.minLength ≤ s.length → s.length ≤ st.maxLength →
        st.blocklist.find? (fun t => substrOf (lowerStr t) (lowerStr s)) = none →
        validate st req now =
          checkRateLimit (l0bump st) (req.userId.getD "anonymous") now 100 60)) ∧
    ((validate st req now).1.valid = true ↔
      ∃ s, req.content.getD (.str "") = .str s ∧ st.minLength ≤ s.length ∧
        s.length ≤ st.maxLength ∧
        (∀ t ∈ st.blocklist, substrOf (lowerStr t) (lowerStr s) = false) ∧
        (checkRateLimit (l0bump st) (req.userId.getD "anonymous") now 100 60).1.valid = true) ∧
    (∀ (st0 : L0State) (uid : String) (now2 : Int) (maxR : Nat) (winS : Int),
      (dictGet st0.rateLimits uid = none →
        checkRateLimit st0 uid now2 maxR winS =
          (⟨true, none, false⟩,
           { st0 with rateLimits := dictInsert st0.rateLimits uid ⟨1, now2⟩ })) ∧
      (∀ e, dictGet st0.rateLimits uid = some e →
        (winS < now2 - e.windowStart →
          checkRateLimit st0 uid now2 maxR winS =
            (⟨true, none, false⟩,
             { st0 with rateLimits := dictInsert st0.rateLimits uid ⟨1, now2⟩ })) ∧
        (now2 - e.windowStart ≤ winS → maxR ≤ e.count →
          checkRateLimit st0 uid now2 maxR winS =
            (⟨false, some "Rate limit exceeded", true⟩, st0)) ∧
        (now2 - e.windowStart ≤ winS → e.count < maxR →
          checkRateLimit st0 uid now2 maxR winS =
            (⟨true, none, false⟩,
             { st0 with rateLimits :=
                 dictInsert st0.rateLimits uid ⟨e.count + 1, e.windowStart⟩ })))) := by
  refine ⟨fun hc => ?_, fun s hc => ?_, ?_, fun st0 uid now2 maxR winS => ?_⟩
  · simp [validate, hc, l0bump]
  · refine ⟨fun h1 => ?_, fun h1 h2 => ?_, fun b h1 h2 hfind => ?_, fun h1 h2 hfind => ?_⟩
    · simp [validate, hc, h1, l0bump]
    · have h1n : ¬ s.length < st.minLength := by omega
      simp [validate, hc, h1n, h2, l0bump]
    · have h1n : ¬ s.length < st.minLength := by omega
      have h2n : ¬ st.maxLength < s.length := by omega
      simp [validate, hc, h1n, h2n, hfind, l0bump]
    · have h1n : ¬ s.length < st.minLength := by omega
      have h2n : ¬ st.maxLength < s.length := by omega
      simp [validate, hc, h1n, h2n, hfind, l0bump]
  · cases hc : req.content.getD (.str "") with
    | nonStr => simp [validate, hc]
    | str s =>
      by_cases h1 : s.length < st.minLength
      · have h1n : ¬ st.minLength ≤ s.length := by omega
        simp [validate, hc, h1, h1n]
      · by_cases h2 : st.maxLength < s.length
        · have h2n : ¬ s.length ≤ st.maxLength := by omega
          simp [validate, hc, h1, h2, h2n]
        · cases hfind : st.blocklist.find? (fun t => substrOf (lowerStr t) (lowerStr s)) with
          | some b =>
            have hmem := List.mem_of_find?_eq_some hfind
            have hb := List.find?_some hfind
            simp only [validate, hc, h1, h2, hfind, if_false, if_neg, ite_false]
            constructor
            · intro h
              simp [h1, h2, hfind] at h
            · rintro ⟨s2, hs2, _, _, hall, _⟩
              cases hs2
              have := hall b hmem
              rw [hb] at this
              cases this
          | none =>
            have hall := List.find?_eq_none.mp hfind
            have h1y : st.minLength ≤ s.length := by omega
            have h2y : s.length ≤ st.maxLength := by omega
            simp only [validate, hc]
            rw [if_neg h1, if_neg h2, hfind]
            simp only [l0bump]
            constructor
            · intro h
              refine ⟨s, rfl, h1y, h2y, fun t ht => ?_, h⟩
              have := hall t ht
              simpa using this
            · rintro ⟨s2, hs2, _, _, _, h⟩
              cases hs2
              exact h
  · refine ⟨fun hget => ?_, fun e hget => ⟨fun hw => ?_, fun hw hcnt => ?_, fun hw hcnt => ?_⟩⟩
    · simp [checkRateLimit, hget]
    · simp [checkRateLimit, hget, hw]
    · have hwn : ¬ winS < now2 - e.windowStart := by omega
      simp [checkRateLimit, hget, hwn, hcnt]
    · have hwn : ¬ winS < now2 - e.windowStart := by omega
      have hcn : ¬ maxR ≤ e.count := by omega
      simp [checkRateLimit, hget, hwn, hcn]

/-- Witness for C8: the non-string rejection, the short-content rejection,
a blocklist rejection, a pass through to the rate limiter, and the three
limiter transitions, all on concrete inputs. -/
theorem validate_order_and_rate_limit_witness :
    validate {} { userId := some "u", content := some .nonStr } 0 =
      (⟨false, some "Content must be a string", true⟩, l0bump {}) ∧
    validate {} { userId := some "u", content := some (.str "Hi") } 0 =
      (⟨false, some "Content too short (min 5 chars)", true⟩, l0bump {}) ∧
    validate { blocklist := ["spam"] } { userId := some "u", content := some (.str "buy SPAM now") } 0 =
      (⟨false, some "Blocked term detected: spam", true⟩, l0bump { blocklist := ["spam"] }) ∧
    validate {} { userId := some "u", content := some (.str "hello friend") } 0 =
      checkRateLimit (l0bump {}) "u" 0 100 60 ∧
    checkRateLimit {} "u" 0 100 60 =
      (⟨true, none, false⟩, { rateLimits := [("u", ⟨1, 0⟩)] }) ∧
    checkRateLimit { rateLimits := [("u", ⟨1, 0⟩)] } "u" 61 100 60 =
      (⟨true, none, false⟩, { rateLimits := [("u", ⟨1, 61⟩)] }) ∧
    checkRateLimit { rateLimits := [("u", ⟨1, 0⟩)] } "u" 5 1 60 =
      (⟨false, some "Rate limit exceeded", true⟩, { rateLimits := [("u", ⟨1, 0⟩)] }) ∧
    checkRateLimit { rateLimits := [("u", ⟨1, 0⟩)] } "u" 5 100 60 =
      (⟨true, none, false⟩, { rateLimits := [("u", ⟨2, 0⟩)] }) := by
  have hA := validate_order_and_rate_limit {} { userId := some "u", content := some .nonStr } 0
  have hB := validate_order_and_rate_limit {} { userId := some "u", content := some (.str "Hi") } 0
  have hC := validate_order_and_rate_limit { blocklist := ["spam"] }
    { userId := some "u", content := some (.str "buy SPAM now") } 0
  have hD := validate_order_and_rate_limit {} { userId := some "u", content := some (.str "hello friend") } 0
  refine ⟨hA.1 rfl, (hB.2.1 "Hi" rfl).1 (by decide), ?_, ?_, ?_, ?_, ?_, ?_⟩
  · exact ((hC.2.1 "buy SPAM now" rfl).2.2.1 "spam" (by decide) (by decide) (by decide)).trans
      (by decide)
  · exact (hD.2.1 "hello friend" rfl).2.2.2 (by decide) (by decide) (by decide)
  · exact ((hA.2.2.2 {} "u" 0 100 60).1 (by decide)).trans (by decide)
  · exact (((hA.2.2.2 { rateLimits := [("u", ⟨1, 0⟩)] } "u" 61 100 60).2 ⟨1, 0⟩
      (by decide)).1 (by decide)).trans (by decide)
  · exact (((hA.2.2.2 { rateLimits := [("u", ⟨1, 0⟩)] } "u" 5 1 60).2 ⟨1, 0⟩
      (by decide)).2.1 (by decide) (by decide)).trans (by decide)
  · exact (((hA.2.2.2 { rateLimits := [("u", ⟨1, 0⟩)] } "u" 5 100 60).2 ⟨1, 0⟩
      (by decide)).2.2 (by decide) (by decide)).trans (by decide)

/-! Claims C1 and C2: the orchestrator. -/

theorem process_record_evolution (ag : AgentState) (sh : SharedState)
    (req : Request) (now : Int) :
    (process ag sh req now).2.1.tracker.records =
      ag.tracker.records ++
        [⟨(process ag sh req now).1.layer, (process ag sh req now).1.cost,
          (process ag sh req now).1.category, (process ag sh req now).1.method,
          now, (process ag sh req now).1.confidence⟩] ∧
    (process ag sh req now).2.1.tracker.suppressions =
      (if (process ag sh req now).1.layer < 2 then ag.tracker.suppressions + 1
       else ag.tracker.suppressions) ∧
    ((process ag sh req now).1.layer = 0 ∨ (process ag sh req now).1.layer = 1 ∨
      (process ag sh req now).1.layer = 2) ∧
    (process ag sh req now).2.1.suppressionCount =
      (if (process ag sh req now).1.layer = 1 then ag.suppressionCount + 1
       else ag.suppressionCount) := by
  simp only [process]
  split
  · simp [recordResult, trackRecord]
  · split
    · simp [recordResult, trackRecord]
    · split
      · simp [recordResult, trackRecord]
      · simp [recordResult, trackRecord]

theorem process_decision_cases (ag : AgentState) (sh : SharedState)
    (req : Request) (now : Int) :
    (process ag sh req now).1 = ⟨"REJECTED", "validation", 1, 0, 0, true⟩ ∨
    (∃ m : PatternMatchResult,
      (process ag sh req now).1 =
        ⟨pyOrStr m.category "unknown", m.method, m.confidence, 0, 1, true⟩) ∨
    (process ag sh req now).1 = ⟨"ERROR", "error_handler", 0, 0, 0, false⟩ ∨
    (∃ fm : DeliberativeResult, ∃ l2 : L2Impl,
      reasonStep ag.layer2 ((req.content.getD (.str "")).getStr) = .ok (fm, l2) ∧
      (process ag sh req now).1 =
        ⟨fm.category, "llm", fm.confidence, fm.cost, 2, false⟩) := by
  simp only [process]
  split
  · exact Or.inl rfl
  · split
    · rename_i m hm
      exact Or.inr (Or.inl ⟨m, rfl⟩)
    · split
      · exact Or.inr (Or.inr (Or.inl rfl))
      · rename_i fm l2 hr
        exact Or.inr (Or.inr (Or.inr ⟨fm, l2, hr, rfl⟩))

/-- Claim C1, amended: every decision sits at layer 0, 1 or 2; decisions
at layers 0 and 1 cost nothing; a suppressed decision always sits below
layer 2, and every decision below layer 2 other than the error-handler
one is suppressed (the ERROR decision of agent.py:170-176 is the single
exception, carrying layer 0 with suppressed false); and with the built-in
deliberative layer a layer-2 decision costs exactly cost_per_call. -/
theorem decision_invariant_amended (ag : AgentState) (sh : SharedState)
    (req : Request) (now : Int) :
    ((process ag sh req now).1.layer = 0 ∨ (process ag sh req now).1.layer = 1 ∨
      (process ag sh req now).1.layer = 2) ∧
    ((process ag sh req now).1.layer = 0 ∨ (process ag sh req now).1.layer = 1 →
      (process ag sh req now).1.cost = 0) ∧
    ((process ag sh req now).1.suppressed = true → (process ag sh req now).1.layer < 2) ∧
    ((process ag sh req now).1.layer < 2 →
      (process ag sh req now).1.method ≠ "error_handler" →
      (process ag sh req now).1.suppressed = true) ∧
    (∀ st2 : L2State, ag.layer2 = .builtin st2 → (process ag sh req now).1.layer = 2 →
      (process ag sh req now).1.cost = st2.costPerCall) := by
  obtain h | ⟨m, h⟩ | h | ⟨fm, l2, hr, h⟩ := process_decision_cases ag sh req now <;>
    rw [h]
  · refine ⟨Or.inl rfl, fun _ => rfl, fun _ => by norm_num, fun _ _ => rfl, ?_⟩
    intro st2 _ hl
    simp at hl
  · refine ⟨Or.inr (Or.inl rfl), fun _ => rfl, fun _ => by norm_num, fun _ _ => rfl, ?_⟩
    intro st2 _ hl
    simp at hl
  · refine ⟨Or.inl rfl, fun _ => rfl, fun hs => by simp at hs, fun _ hm => ?_, ?_⟩
    · exact absurd rfl hm
    · intro st2 _ hl
      simp at hl
  · refine ⟨Or.inr (Or.inr rfl), fun hl => by simp at hl, fun hs => by simp at hs,
      fun hl => by norm_num at hl, ?_⟩
    intro st2 hb _
    rw [hb] at hr
    simp only [reasonStep] at hr
    have hfm : fm = (l2reason st2 ((req.content.getD (.str "")).getStr)).1 := by
      cases hr2 : l2reason st2 ((req.content.getD (.str "")).getStr) with
      | mk r stx =>
        rw [hr2] at hr
        cases hr
        rfl
    rw [hfm, l2reason_eq]
    exact simulatedReason_cost _ _

/-- Agent whose deliberative layer is a substituted external classifier
that raises on every call (set_layer2, agent.py:202-209). -/
def errAgent : AgentState := { layer2 := .external fun _ => .error () }

/-- A well-formed request whose content matches no pattern. -/
def plainReq : Request := { userId := some "u", content := some (.str "hello there friend") }

/-- Counterexample to C1 as stated: when the deliberative component
raises, process returns the ERROR decision, which sits at layer 0 yet has
suppressed false, so suppressed does not hold iff the layer is below 2. -/
theorem decision_invariant_counterexample :
    (process errAgent none plainReq 0).1.layer < 2 ∧
    (process errAgent none plainReq 0).1.suppressed = false := by
  constructor
  · decide
  · decide

/-- Witness for C1 amended: the built-in deliberative agent answers an
unmatched request at layer 2 with cost cost_per_call, here the default
one cent. -/
theorem decision_invariant_amended_witness :
    (process ({} : AgentState) none plainReq 0).1.layer = 2 ∧
    (process ({} : AgentState) none plainReq 0).1.cost = decimal 1 2 := by
  have h := decision_invariant_amended ({} : AgentState) none plainReq 0
  exact ⟨by decide, h.2.2.2.2 {} rfl (by decide)⟩

/-- Claim C2: process is total on every request and state (the orchestrator
never raises: a failure of the deliberative component is caught), the
tracker always records exactly the returned decision, timestamped, before
the return, and a deliberative failure after a passed validation and a
missed match yields the ERROR decision with category ERROR, method
error_handler, confidence 0, cost 0, layer 0 and suppressed false. -/
theorem process_always_records_and_catches (ag : AgentState) (sh : SharedState)
    (req : Request) (now : Int) :
    (process ag sh req now).2.1.tracker.records =
      ag.tracker.records ++
        [⟨(process ag sh req now).1.layer, (process ag sh req now).1.cost,
          (process ag sh req now).1.category, (process ag sh req now).1.method,
          now, (process ag sh req now).1.confidence⟩] ∧
    ((validate ag.layer0 req now).1.valid = true →
      (l1match ag.layer1 sh ((req.content.getD (.str "")).getStr)).1 = none →
      reasonStep ag.layer2 ((req.content.getD (.str "")).getStr) = .error () →
      (process ag sh req now).1 = ⟨"ERROR", "error_handler", 0, 0, 0, false⟩) := by
  refine ⟨(process_record_evolution ag sh req now).1, fun hv hm herr => ?_⟩
  simp only [process, hv, hm, herr]
  simp

/-- Witness for C2: the failing-classifier agent returns the ERROR
decision and records it into the fresh tracker. -/
theorem process_always_records_and_catches_witness :
    (process errAgent none plainReq 0).1 = ⟨"ERROR", "error_handler", 0, 0, 0, false⟩ ∧
    (process errAgent none plainReq 0).2.1.tracker.records =
      [⟨0, 0, "ERROR", "error_handler", 0, 0⟩] := by
  have h := process_always_records_and_catches errAgent none plainReq 0
  refine ⟨h.2 (by decide) (by decide) rfl, h.1.trans (by decide)⟩

/-! Helper lemmas about the local pattern scan. -/

theorem scanLocal_keys (thr : ℚ) (cl : String) (l : List (String × Pattern)) :
    ((scanLocal thr cl l).2).map Prod.fst = l.map Prod.fst := by
  induction l with
  | nil => rfl
  | cons hd tl ih =>
    obtain ⟨nm, p⟩ := hd
    cases h : reSearch p.regex cl with
    | ok b =>
      cases b with
      | true =>
        by_cases hc : thr ≤ p.confidence
        · simp [scanLocal, h, hc]
        · simp [scanLocal, h, hc, ih]
      | false => simp [scanLocal, h, ih]
    | error => simp [scanLocal, h, ih]

theorem scanLocal_skip (thr : ℚ) (cl : String) (nm : String) (p : Pattern)
    (post : List (String × Pattern)) (herr : reSearch p.regex cl = .error) :
    ∀ pre : List (String × Pattern),
      (scanLocal thr cl (pre ++ (nm, p) :: post)).1 =
        (scanLocal thr cl (pre ++ post)).1 ∧
      ∃ u v, (scanLocal thr cl (pre ++ (nm, p) :: post)).2 = u ++ (nm, p) :: v ∧
        (scanLocal thr cl (pre ++ post)).2 = u ++ v := by
  intro pre
  induction pre with
  | nil =>
    refine ⟨by simp [scanLocal, herr], [], (scanLocal thr cl post).2,
      by simp [scanLocal, herr], rfl⟩
  | cons hd tl ih =>
    obtain ⟨h1, u, v, h2, h3⟩ := ih
    obtain ⟨m, q⟩ := hd
    cases hq : reSearch q.regex cl with
    | ok b =>
      cases b with
      | true =>
        by_cases hc : thr ≤ q.confidence
        · refine ⟨by simp [scanLocal, hq, hc],
            (m, { q with matchCount := q.matchCount + 1 }) :: tl, post,
            by simp [scanLocal, hq, hc], by simp [scanLocal, hq, hc]⟩
        · refine ⟨by simp [scanLocal, hq, hc, h1], (m, q) :: u, v,
            by simp [scanLocal, hq, hc, h2], by simp [scanLocal, hq, hc, h3]⟩
      | false =>
        refine ⟨by simp [scanLocal, hq, h1], (m, q) :: u, v,
          by simp [scanLocal, hq, h2], by simp [scanLocal, hq, h3]⟩
    | error =>
      refine ⟨by simp [scanLocal, hq, h1], (m, q) :: u, v,
        by simp [scanLocal, hq, h2], by simp [scanLocal, hq, h3]⟩

theorem scanLocal_first (thr : ℚ) (cl : String) (nm : String) (p : Pattern)
    (post : List (String × Pattern)) (hm : reSearch p.regex cl = .ok true)
    (hc : thr ≤ p.confidence) :
    ∀ pre : List (String × Pattern),
      (∀ q ∈ pre, reSearch q.2.regex cl = .ok true → q.2.confidence < thr) →
      scanLocal thr cl (pre ++ (nm, p) :: post) =
        (some ⟨true, some nm, some p.category, p.confidence, "pattern_cached"⟩,
         pre ++ (nm, { p with matchCount := p.matchCount + 1 }) :: post) := by
  intro pre
  induction pre with
  | nil => intro _; simp [scanLocal, hm, hc]
  | cons hd tl ih =>
    intro hpre
    obtain ⟨m, q⟩ := hd
    have htl : ∀ r ∈ tl, reSearch r.2.regex cl = .ok true → r.2.confidence < thr :=
      fun r hr => hpre r (List.mem_cons_of_mem _ hr)
    cases hqs : reSearch q.regex cl with
    | ok b =>
      cases b with
      | true =>
        have hlt : q.confidence < thr := hpre (m, q) (List.mem_cons_self _ _) hqs
        have hcn : ¬ thr ≤ q.confidence := not_le.mpr hlt
        simp [scanLocal, hqs, hcn, ih htl]
      | false => simp [scanLocal, hqs, ih htl]
    | error => simp [scanLocal, hqs, ih htl]

/-- Claim C9: a registered pattern whose regex does not compile never
aborts the scan or surfaces an error: match answers exactly as it would
with the offending pattern removed (so a later qualifying pattern still
wins), and the offending pattern is left untouched in the registry. -/
theorem malformed_regex_skipped (st : L1State) (sh : SharedState) (content : String)
    (pre post : List (String × Pattern)) (nm : String) (p : Pattern)
    (hpats : st.patterns = pre ++ (nm, p) :: post)
    (herr : reSearch p.regex (lowerStr content) = .error) :
    (l1match st sh content).1 =
      (l1match { st with patterns := pre ++ post } sh content).1 ∧
    (nm ∉ (pre ++ post).map Prod.fst →
      dictGet (l1match st sh content).2.patterns nm = some p) := by
  obtain ⟨h1, u, v, h2, h3⟩ :=
    scanLocal_skip st.confidenceThreshold (lowerStr content) nm p post herr pre
  constructor
  · cases hcache : dictGet st.cache (lowerStr content) with
    | some cached => simp [l1match, hcache]
    | none =>
      cases hres : (scanLocal st.confidenceThreshold (lowerStr content) (pre ++ post)).1 with
      | some r => simp [l1match, hcache, hpats, h1, hres]
      | none =>
        cases sh with
        | none => simp [l1match, hcache, hpats, h1, hres]
        | some entries =>
          cases hss : scanShared st.confidenceThreshold (lowerStr content) entries with
          | some r => simp [l1match, hcache, hpats, h1, hres, hss]
          | none => simp [l1match, hcache, hpats, h1, hres, hss]
  · intro hfresh
    have hkeys := scanLocal_keys st.confidenceThreshold (lowerStr content) (pre ++ post)
    have hnmu : nm ∉ u.map Prod.fst := by
      intro hmem
      apply hfresh
      have : nm ∈ ((scanLocal st.confidenceThreshold (lowerStr content) (pre ++ post)).2).map Prod.fst := by
        rw [h3]
        simp only [List.map_append, List.mem_append]
        exact Or.inl hmem
      rw [hkeys] at this
      exact this
    have hget : dictGet (u ++ (nm, p) :: v) nm = some p := by
      rw [dictGet_append_of_not_mem hnmu, dictGet_cons_self]
    have hnp : nm ∉ pre.map Prod.fst := by
      intro hmem
      apply hfresh
      simp only [List.map_append, List.mem_append]
      exact Or.inl hmem
    cases hcache : dictGet st.cache (lowerStr content) with
    | some cached =>
      simp only [l1match, hcache]
      rw [hpats, dictGet_append_of_not_mem hnp, dictGet_cons_self]
    | none =>
      have h2' := hpats ▸ h2
      cases hres : (scanLocal st.confidenceThreshold (lowerStr content) st.patterns).1 with
      | some r =>
        simp only [l1match, hcache, hres]
        rw [h2', hget]
      | none =>
        cases sh with
        | none =>
          simp only [l1match, hcache, hres]
          rw [h2', hget]
        | some entries =>
          cases hss : scanShared st.confidenceThreshold (lowerStr content) entries with
          | some r =>
            simp only [l1match, hcache, hres, hss]
            rw [h2', hget]
          | none =>
            simp only [l1match, hcache, hres, hss]
            rw [h2', hget]

/-- The malformed pattern of the repository's own regression test. -/
def badPat : Pattern := ⟨"invalid", "[invalid", "category", decimal 95 2, none, none, 0⟩

/-- A well-formed qualifying pattern registered after the malformed one. -/
def goodPat : Pattern := ⟨"test", "test", "testing", decimal 95 2, none, none, 0⟩

/-- Stage holding the malformed pattern ahead of the qualifying one. -/
def stBad : L1State := { patterns := [("invalid", badPat), ("test", goodPat)] }

/-- Witness for C9: with the malformed pattern registered first, match
still answers through the later qualifying pattern, exactly as without
the malformed pattern, which stays registered and untouched. -/
theorem malformed_regex_skipped_witness :
    (l1match stBad none "Some test content").1 =
      (l1match { stBad with patterns := [] ++ [("test", goodPat)] } none "Some test content").1 ∧
    dictGet (l1match stBad none "Some test content").2.patterns "invalid" = some badPat ∧
    (l1match stBad none "Some test content").1 =
      some ⟨true, some "test", some "testing", decimal 95 2, "pattern_cached"⟩ := by
  have h := malformed_regex_skipped stBad none "Some test content" [] [("test", goodPat)]
    "invalid" badPat rfl (by decide)
  exact ⟨h.1, h.2 (by decide), by decide⟩

/-- Claim C3, amended: when the stage's cache holds no entry for the
lowercased content, the first registered pattern (in registration order)
that matches with confidence at or above the threshold decides: process
answers its category at layer 1, method pattern_cached, cost zero,
suppressed, the winner's match_count is bumped and the result is cached.
As stated the claim also demanded this with a populated cache, which the
counterexample refutes. -/
theorem pattern_first_match_wins (ag : AgentState) (sh : SharedState)
    (req : Request) (now : Int) (s : String) (pre post : List (String × Pattern))
    (nm : String) (p : Pattern)
    (hs : req.content = some (.str s))
    (hv : (validate ag.layer0 req now).1.valid = true)
    (hcache : dictGet ag.layer1.cache (lowerStr s) = none)
    (hpats : ag.layer1.patterns = pre ++ (nm, p) :: post)
    (hpre : ∀ q ∈ pre, reSearch q.2.regex (lowerStr s) = .ok true →
      q.2.confidence < ag.layer1.confidenceThreshold)
    (hm : reSearch p.regex (lowerStr s) = .ok true)
    (hc : ag.layer1.confidenceThreshold ≤ p.confidence) :
    (process ag sh req now).1 =
      ⟨pyOrStr (some p.category) "unknown", "pattern_cached", p.confidence, 0, 1, true⟩ ∧
    (process ag sh req now).2.1.layer1.patterns =
      pre ++ (nm, { p with matchCount := p.matchCount + 1 }) :: post ∧
    dictGet (process ag sh req now).2.1.layer1.cache (lowerStr s) =
      some ⟨true, some nm, some p.category, p.confidence, "pattern_cached"⟩ := by
  have hscan := scanLocal_first ag.layer1.confidenceThreshold (lowerStr s) nm p post
    hm hc pre hpre
  have hs' : (req.content.getD (.str "")).getStr = s := by rw [hs]; rfl
  have hvn : ¬ ((validate ag.layer0 req now).1.valid = false) := by simp [hv]
  refine ⟨?_, ?_, ?_⟩ <;>
    simp only [process, hs', hvn, if_false, ite_false, if_neg hvn, l1match, hcache,
      hpats, hscan] <;>
    simp [dictGet_dictInsert_self]

/-- Agent of end-to-end scenario 2: one urgency pattern at 0.95. -/
def scen2Agent : AgentState :=
  { layer1 := addPattern {} "urgent" "urgent|asap|emergency" "urgent" (decimal 95 2) 0 }

/-- Request of end-to-end scenario 2. -/
def scen2Req : Request := { userId := some "u", content := some (.str "This is an urgent request!") }

/-- Witness for C3 amended: scenario 2 of the spec, where the registered
urgency pattern decides at layer 1 and its match_count is bumped. -/
theorem pattern_first_match_wins_witness :
    (process scen2Agent none scen2Req 0).1 =
      ⟨"urgent", "pattern_cached", decimal 95 2, 0, 1, true⟩ ∧
    (process scen2Agent none scen2Req 0).2.1.layer1.patterns =
      [("urgent", ⟨"urgent", "urgent|asap|emergency", "urgent", decimal 95 2, some 0, none, 1⟩)] := by
  have h := pattern_first_match_wins scen2Agent none scen2Req 0 "This is an urgent request!"
    [] [] "urgent" ⟨"urgent", "urgent|asap|emergency", "urgent", decimal 95 2, some 0, none, 0⟩
    rfl (by decide) (by decide) (by decide) (by simp) (by decide) (by decide)
  exact ⟨h.1.trans (by decide), h.2.1.trans (by decide)⟩

/-- Request whose content seeds the stale cached negative. -/
def staleReq : Request := { userId := some "u", content := some (.str "hello dear friend") }

/-- First run on a fresh agent: no pattern matches, so the negative is
cached and the deliberative layer answers. -/
def staleRun : Decision × AgentState × SharedState := process ({} : AgentState) none staleReq 0

/-- The same agent after a qualifying pattern for the cached content is
registered. -/
def staleAgent : AgentState :=
  { staleRun.2.1 with layer1 := addPattern staleRun.2.1.layer1 "greet" "hello" "greeting" (decimal 95 2) 1 }

/-- Counterexample to C3 as stated: the pattern named greet matches the
validated content with confidence 0.95, at or above the 0.85 threshold,
yet process answers at layer 2 by the model because the stale cached
negative for that content is consulted before the patterns. -/
theorem pattern_first_match_wins_counterexample :
    dictGet staleAgent.layer1.patterns "greet" =
      some ⟨"greet", "hello", "greeting", decimal 95 2, some 1, none, 0⟩ ∧
    reSearch "hello" (lowerStr "hello dear friend") = .ok true ∧
    staleAgent.layer1.confidenceThreshold ≤ decimal 95 2 ∧
    (validate staleAgent.layer0 staleReq 2).1.valid = true ∧
    (process staleAgent staleRun.2.2 staleReq 2).1.layer = 2 ∧
    (process staleAgent staleRun.2.2 staleReq 2).1.method = "llm" := by
  exact ⟨by decide, by decide, by decide, by decide, by decide, by decide⟩

/-! Claim C4: shared-pattern propagation. -/

theorem scanShared_first (thr : ℚ) (cl : String) (C : String) (e : SharedEntry)
    (post : List (String × SharedEntry)) (hsub : substrOf (lowerStr C) cl = true)
    (hconf : thr ≤ e.confidence) :
    ∀ pre : List (String × SharedEntry),
      (∀ q ∈ pre, substrOf (lowerStr q.1) cl = true → q.2.confidence < thr) →
      scanShared thr cl (pre ++ (C, e) :: post) =
        some ⟨true, some C, some C, e.confidence, "pattern_shared"⟩ := by
  intro pre
  induction pre with
  | nil => intro _; simp [scanShared, hsub, hconf]
  | cons hd tl ih =>
    intro hpre
    obtain ⟨m, q⟩ := hd
    have htl : ∀ r ∈ tl, substrOf (lowerStr r.1) cl = true → r.2.confidence < thr :=
      fun r hr => hpre r (List.mem_cons_of_mem _ hr)
    by_cases hm : substrOf (lowerStr m) cl = true
    · have hlt : q.confidence < thr := hpre (m, q) (List.mem_cons_self _ _) hm
      have hcn : ¬ thr ≤ q.confidence := not_le.mpr hlt
      simp [scanShared, hm, hcn, ih htl]
    · simp [scanShared, hm, ih htl]

/-- Claim C4, amended: a category published by learn_pattern into the
shared map is picked up by any stage sharing that map: if the published
entry for C is the first entry of the shared map that is contained in the
content and reaches the threshold, and neither the cache nor a qualifying
local pattern answers first, match answers pattern_shared with category C
and the published confidence, and the orchestrator wraps it into a
layer-1, zero-cost, suppressed decision.  As stated the claim also
covered contents containing an earlier qualifying shared category, which
the counterexample refutes. -/
theorem shared_pattern_propagation
    (stA : L1State) (shA : SharedState) (cA C : String) (c : ℚ)
    (lbA : Option String) (nA : Int)
    (entries : List (String × SharedEntry)) (nmA : String) (stA2 : L1State)
    (hlearn : learnPattern stA shA cA C c lbA nA = (some nmA, stA2, some entries))
    (agB : AgentState) (reqB : Request) (s : String) (nowB : Int)
    (pre post : List (String × SharedEntry)) (e : SharedEntry)
    (hs : reqB.content = some (.str s))
    (hv : (validate agB.layer0 reqB nowB).1.valid = true)
    (hcache : dictGet agB.layer1.cache (lowerStr s) = none)
    (hlocal : (scanLocal agB.layer1.confidenceThreshold (lowerStr s) agB.layer1.patterns).1 = none)
    (hdecomp : entries = pre ++ (C, e) :: post)
    (hCpre : C ∉ pre.map Prod.fst)
    (hpre : ∀ q ∈ pre, substrOf (lowerStr q.1) (lowerStr s) = true →
      q.2.confidence < agB.layer1.confidenceThreshold)
    (hsub : substrOf (lowerStr C) (lowerStr s) = true)
    (hconf : agB.layer1.confidenceThreshold ≤ c) :
    e = ⟨c, lbA, nA⟩ ∧
    (l1match agB.layer1 (some entries) s).1 =
      some ⟨true, some C, some C, c, "pattern_shared"⟩ ∧
    (process agB (some entries) reqB nowB).1 =
      ⟨pyOrStr (some C) "unknown", "pattern_shared", c, 0, 1, true⟩ := by
  have he : entries = dictInsert (shA.getD []) C ⟨c, lbA, nA⟩ := by
    by_cases hlt : c < decimal 90 2
    · simp [learnPattern, hlt] at hlearn
    · cases hsplit : pySplit (lowerStr cA) with
      | nil => simp [learnPattern, hlt, hsplit] at hlearn
      | cons kw rest =>
        simp [learnPattern, hlt, hsplit, Prod.ext_iff] at hlearn
        exact hlearn.2.2.symm
  have hgetIns : dictGet entries C = some ⟨c, lbA, nA⟩ := by
    rw [he]; exact dictGet_dictInsert_self _ _ _
  have hgetDec : dictGet entries C = some e := by
    rw [hdecomp, dictGet_append_of_not_mem hCpre, dictGet_cons_self]
  have heq : e = ⟨c, lbA, nA⟩ := Option.some.inj (hgetDec.symm.trans hgetIns)
  have hce : agB.layer1.confidenceThreshold ≤ e.confidence := by rw [heq]; exact hconf
  have hss := scanShared_first agB.layer1.confidenceThreshold (lowerStr s) C e post
    hsub hce pre hpre
  have hcc : e.confidence = c := by rw [heq]
  have hmatch : (l1match agB.layer1 (some entries) s).1 =
      some ⟨true, some C, some C, c, "pattern_shared"⟩ := by
    rw [hdecomp]
    simp [l1match, hcache, hlocal, hss, hcc]
  refine ⟨heq, hmatch, ?_⟩
  have hs2 : (reqB.content.getD (.str "")).getStr = s := by rw [hs]; rfl
  have hvn : ¬ ((validate agB.layer0 reqB nowB).1.valid = false) := by simp [hv]
  simp only [process, hs2, if_neg hvn]
  simp [hmatch]

/-- First learning step of the counterexample: the urgent category is
published first. -/
def learnA1 : Option String × L1State × SharedState :=
  learnPattern {} none "urgent fire now" "urgent" (decimal 95 2) (some "A") 0

/-- Second learning step: billing is published after urgent. -/
def learnA2 : Option String × L1State × SharedState :=
  learnPattern learnA1.2.1 learnA1.2.2 "invoice overdue" "billing" (decimal 92 2) (some "A") 1

/-- Request whose content contains both shared category names. -/
def cexReq : Request := { userId := some "b", content := some (.str "urgent billing matter") }

/-- Counterexample to C4 as stated: billing sits in the shared map with
confidence 0.92, the validated content contains the billing substring,
the second agent has no cache entry and no local pattern at all, yet its
decision carries the urgent category of the earlier shared entry, not
billing. -/
theorem shared_pattern_propagation_counterexample :
    dictGet (learnA2.2.2.getD []) "billing" = some ⟨decimal 92 2, some "A", 1⟩ ∧
    substrOf (lowerStr "billing") (lowerStr "urgent billing matter") = true ∧
    ({} : AgentState).layer1.patterns = [] ∧
    dictGet ({} : AgentState).layer1.cache (lowerStr "urgent billing matter") = none ∧
    (validate ({} : AgentState).layer0 cexReq 2).1.valid = true ∧
    (process ({} : AgentState) learnA2.2.2 cexReq 2).1.method = "pattern_shared" ∧
    (process ({} : AgentState) learnA2.2.2 cexReq 2).1.category = "urgent" ∧
    ¬ ((process ({} : AgentState) learnA2.2.2 cexReq 2).1.category = "billing") := by
  exact ⟨by decide, by decide, rfl, by decide, by decide, by decide, by decide, by decide⟩

/-- Stage state registered by the witness learning step. -/
def learnWStage : L1State :=
  { patterns := [("learned_invoice_billing",
      ⟨"learned_invoice_billing", "invoice", "billing", decimal 92 2, some 0, some "A", 0⟩)] }

/-- Request of end-to-end scenario 4 for the second agent. -/
def wReq : Request := { userId := some "b", content := some (.str "billing question here") }

/-- Witness for C4 amended: scenario 4 of the spec, one published billing
entry, picked up by a fresh agent sharing the map. -/
theorem shared_pattern_propagation_witness :
    (l1match ({} : AgentState).layer1 (some [("billing", ⟨decimal 92 2, some "A", 0⟩)])
      "billing question here").1 =
      some ⟨true, some "billing", some "billing", decimal 92 2, "pattern_shared"⟩ ∧
    (process ({} : AgentState) (some [("billing", ⟨decimal 92 2, some "A", 0⟩)]) wReq 1).1 =
      ⟨"billing", "pattern_shared", decimal 92 2, 0, 1, true⟩ := by
  have h := shared_pattern_propagation {} none "invoice overdue" "billing" (decimal 92 2)
    (some "A") 0 [("billing", ⟨decimal 92 2, some "A", 0⟩)] "learned_invoice_billing"
    learnWStage (by decide) ({} : AgentState) wReq "billing question here" 1 [] []
    ⟨decimal 92 2, some "A", 0⟩ rfl (by decide) (by decide) (by decide) rfl
    (by simp) (by simp) (by decide) (by decide)
  exact ⟨h.2.1, h.2.2.trans (by decide)⟩

/-! Claim C10: the two suppression counters. -/

theorem countP_mono_of_imp {α : Type} {p q : α → Bool}
    (h : ∀ a, p a = true → q a = true) :
    ∀ l : List α, l.countP p ≤ l.countP q := by
  intro l
  induction l with
  | nil => simp
  | cons a tl ih =>
    by_cases hpa : p a = true
    · have hqa := h a hpa
      simp only [List.countP_cons, hpa, hqa]
      omega
    · by_cases hqa : q a = true <;> simp only [List.countP_cons, hpa, hqa] <;> simp <;> omega

theorem countP_strict_of_mem {α : Type} {p q : α → Bool}
    (h : ∀ a, p a = true → q a = true) {l : List α} {a : α}
    (ha : a ∈ l) (hqa : q a = true) (hpa : p a = false) :
    l.countP p < l.countP q := by
  induction l with
  | nil => cases ha
  | cons b tl ih =>
    rcases List.mem_cons.mp ha with rfl | hmem
    · have hle := countP_mono_of_imp h tl
      simp only [List.countP_cons, hqa, hpa]
      simp
      omega
    · by_cases hpb : p b = true
      · have hqb := h b hpb
        have := ih hmem
        simp only [List.countP_cons, hpb, hqb]
        omega
      · have := ih hmem
        by_cases hqb : q b = true <;> simp only [List.countP_cons, hpb, hqb] <;> simp <;> omega

/-- Claim C10: at every reachable agent state, the tracker's suppression
counter counts the recorded decisions below layer 2 (layer-0 rejections
and ERROR decisions included) while the agent's own counter counts only
the layer-1 decisions, so the tracker's counter always dominates the
agent's and strictly exceeds it once a layer-0 decision is recorded; in
the report, the suppression_rate field derives from the tracker's counter
and the suppressions field is the agent's counter. -/
theorem suppression_counters (ag : AgentState) (sh : SharedState) (h : Reached ag sh) :
    ag.tracker.suppressions = ag.tracker.records.countP (fun r => decide (r.layer < 2)) ∧
    ag.suppressionCount = ag.tracker.records.countP (fun r => decide (r.layer = 1)) ∧
    ag.suppressionCount ≤ ag.tracker.suppressions ∧
    ((∃ r ∈ ag.tracker.records, r.layer = 0) →
      ag.suppressionCount < ag.tracker.suppressions) ∧
    (agentReport ag).suppressionRateField = suppressionRate ag.tracker ∧
    (agentReport ag).suppressionsField = ag.suppressionCount := by
  have himp : ∀ r : CostRecord, decide (r.layer = 1) = true → decide (r.layer < 2) = true := by
    intro r hr
    simp only [decide_eq_true_eq] at hr ⊢
    omega
  have key : ag.tracker.suppressions =
      ag.tracker.records.countP (fun r => decide (r.layer < 2)) ∧
      ag.suppressionCount = ag.tracker.records.countP (fun r => decide (r.layer = 1)) := by
    induction h with
    | init id thr l0 l1 l2 sh0 => exact ⟨rfl, rfl⟩
    | step req now hr ih =>
      rename_i ag0 sh0
      obtain ⟨e1, e2, e3, e4⟩ := process_record_evolution ag0 sh0 req now
      rcases e3 with h0 | h1 | h2
      · rw [e1, e2, e4]
        simp [h0, List.countP_append, List.countP_cons, ih.1, ih.2]
      · rw [e1, e2, e4]
        simp [h1, List.countP_append, List.countP_cons, ih.1, ih.2]
      · rw [e1, e2, e4]
        simp [h2, List.countP_append, List.countP_cons, ih.1, ih.2]
  refine ⟨key.1, key.2, ?_, ?_, rfl, rfl⟩
  · rw [key.1, key.2]
    exact countP_mono_of_imp himp _
  · rintro ⟨r, hmem, hr0⟩
    rw [key.1, key.2]
    exact countP_strict_of_mem himp hmem (by simp [hr0]) (by simp [hr0])

/-- Witness for C10: a fresh agent rejects a too-short request; the
recorded layer-0 decision makes the tracker's suppression counter
strictly exceed the agent's. -/
theorem suppression_counters_witness :
    (process ⟨"a", decimal 85 2, {}, {}, .builtin {}, {}, 0⟩ none
      { userId := some "u", content := some (.str "Hi") } 0).2.1.suppressionCount <
    (process ⟨"a", decimal 85 2, {}, {}, .builtin {}, {}, 0⟩ none
      { userId := some "u", content := some (.str "Hi") } 0).2.1.tracker.suppressions := by
  have h := suppression_counters _ _
    (Reached.step { userId := some "u", content := some (.str "Hi") } 0
      (Reached.init "a" (decimal 85 2) {} {} (.builtin {}) none))
  exact h.2.2.2.1 ⟨⟨0, 0, "REJECTED", "validation", 0, 1⟩, by decide, rfl⟩

end SPL
